import Mathlib

/-!
Shallow embedding of the per-function code-generation state of LDC's
`gen/funcgenstate.h` (the only source file under study), together with the
parts of its out-of-line implementation and of the cleanup/try-catch scope
manager (`gen/trycatchfinally.h`) that the header only declares; those parts
are modelled from the specification and are marked as such in their doc
comments.

Conventions of the embedding:
- LLVM basic blocks, alloca slots, identifiers, statements and source
  locations are represented by natural numbers.
- The various stacks (`cleanupScopes`, `tryCatchScopes`, `breakTargets`,
  `continueTargets`, `unresolvedGotosPerCleanupScope`) are kept with the
  innermost (most recently pushed) entry FIRST; the C++ code uses
  `std::vector` with `push_back`, i.e. innermost last.  This is a pure
  representation choice: pushing is `::`, the innermost entry is the head.
- The IR builder is modelled by `IRState`: a fresh-block allocator
  (`nextBlock`; every block ever handed out is `< nextBlock`), the current
  insertion block, and the list of emitted unconditional branch edges.
-/

/-- Source of `struct JumpTarget` (gen/funcgenstate.h): target block, cleanup
cursor at definition, and the owning statement (nullable). -/
structure JumpTarget where
  targetBlock : Nat
  cleanupScope : Nat
  targetStatement : Option Nat
deriving Repr, DecidableEq

/-- Source of `struct GotoJump` (gen/funcgenstate.h): source location, source
block, tentative target block (nullable placeholder) and target label. -/
structure GotoJump where
  sourceLoc : Nat
  sourceBlock : Nat
  tentativeTarget : Option Nat
  targetLabel : Nat
deriving Repr, DecidableEq

/-- A cleanup region as registered by `pushCleanup(beginBlock, endBlock)`. -/
structure CleanupScope where
  beginBlock : Nat
  endBlock : Nat
deriving Repr, DecidableEq

/-- A try/catch registration: its statement, the end block, and whether any
associated catch clause handles a non-`Exception` `Throwable`. -/
structure TryCatchScope where
  stmt : Nat
  endbb : Nat
  catchesNonExceptions : Bool
deriving Repr, DecidableEq

/-- A `TryCatchStatement` handle as passed to `pushTryCatch`: its identity and
whether one of its catches handles a non-`Exception` `Throwable` (the latter
is computed by the scope manager from the catch clauses, outside the sources
under study). -/
structure TryCatchStatement where
  stmtId : Nat
  catchesNonExceptions : Bool
deriving Repr, DecidableEq

/-- Modelled from the spec: the state of the Cleanup/Try-Catch Scope Manager
(`TryCatchFinallyScopes`, gen/trycatchfinally.h, declared but not defined in
the sources under study): the stack of cleanup regions, the stack of try/catch
registrations (both innermost first), and the lazily created shared landing
pad. -/
structure TryCatchFinallyScopes where
  cleanupScopes : List CleanupScope
  tryCatchScopes : List TryCatchScope
  landingPad : Option Nat
deriving Repr, DecidableEq

/-- Modelled from the spec: `current_cleanup_scope()` returns the live cursor,
the current depth of the cleanup-scope stack. -/
def TryCatchFinallyScopes.currentCleanupScope (tcf : TryCatchFinallyScopes) : Nat :=
  tcf.cleanupScopes.length

/-- Modelled from the spec: `empty()` — no try/catch/cleanup scope is active. -/
def TryCatchFinallyScopes.empty (tcf : TryCatchFinallyScopes) : Bool :=
  tcf.cleanupScopes.isEmpty && tcf.tryCatchScopes.isEmpty

/-- Modelled from the spec: `is_catching_non_exceptions()` is true if the
innermost active try registers a catch for a throwable type outside the
conventional exception hierarchy. -/
def TryCatchFinallyScopes.isCatchingNonExceptions (tcf : TryCatchFinallyScopes) : Bool :=
  match tcf.tryCatchScopes with
  | [] => false
  | tc :: _ => tc.catchesNonExceptions

/-- Modelled from the spec: `pushCleanup` of the scope manager registers a
cleanup region (innermost first in this embedding). -/
def TryCatchFinallyScopes.pushCleanup (tcf : TryCatchFinallyScopes)
    (beginBlock endBlock : Nat) : TryCatchFinallyScopes :=
  { tcf with cleanupScopes := ⟨beginBlock, endBlock⟩ :: tcf.cleanupScopes }

/-- Modelled from the spec: `pushTryCatch` registers a try/catch scope. -/
def TryCatchFinallyScopes.pushTryCatch (tcf : TryCatchFinallyScopes)
    (stmt : TryCatchStatement) (endbb : Nat) : TryCatchFinallyScopes :=
  { tcf with tryCatchScopes :=
      ⟨stmt.stmtId, endbb, stmt.catchesNonExceptions⟩ :: tcf.tryCatchScopes }

/-- Modelled from the spec: `popTryCatch` unregisters the last registered
try-catch scope. -/
def TryCatchFinallyScopes.popTryCatch (tcf : TryCatchFinallyScopes) :
    TryCatchFinallyScopes :=
  { tcf with tryCatchScopes := tcf.tryCatchScopes.tail }

/-- The slice of the ambient `IRState` that this core drives: a fresh basic
block allocator, the current insertion block, and the emitted unconditional
branch edges (source block, destination block). -/
structure IRState where
  nextBlock : Nat
  insertionBlock : Nat
  edges : List (Nat × Nat)
deriving Repr, DecidableEq

/-- The consecutive pairs of a list of blocks: the unconditional branch edges
of a chain that visits the blocks in order. -/
def chainPairs (l : List Nat) : List (Nat × Nat) :=
  l.zip l.tail

/-- Appends the chain of unconditional branches leading from the current
insertion block through `mids` (cleanup begin blocks) and finally into
`dest`. -/
def IRState.emitChainTo (irs : IRState) (mids : List Nat) (dest : Nat) : IRState :=
  { irs with edges := irs.edges ++ chainPairs (irs.insertionBlock :: (mids ++ [dest])) }

/-- The begin blocks of the cleanups run when leaving `current` cleanup scopes
for the `target` cursor: the innermost `current - target` entries of the
stack, innermost first (LIFO). -/
def cleanupBeginBlocks (cleanups : List CleanupScope) (current target : Nat) : List Nat :=
  (cleanups.take (current - target)).map (fun c => c.beginBlock)

/-- Modelled from the spec: the observable execution order of
`run_cleanups(target, continueWith)` (TryCatchFinallyScopes::runCleanups,
gen/trycatchfinally.h/.cpp, not among the sources under study).  Starting at
depth `current`, it emits the branches executing every cleanup between the
current depth and `target`, innermost (most recently pushed) first.  The
result records the cleanup depths executed, in emission order. -/
def runCleanupsDepthTrace : Nat → Nat → List Nat
  | 0, _ => []
  | d + 1, target => if target < d + 1 then (d + 1) :: runCleanupsDepthTrace d target else []

/-- The result of a `callOrInvoke`: either a plain call, or an invocation with
a normal-return edge and an exception edge.  `attrsFromCallee` records whether
the callee's attribute set was copied onto the emitted instruction (done
exactly when the callee is a directly known `llvm::Function`). -/
inductive CallSite where
  | call (callee : Nat) (attrsFromCallee : Bool)
  | invoke (callee : Nat) (normalDest : Nat) (unwindDest : Nat) (attrsFromCallee : Bool)
deriving Repr, DecidableEq

/-- The statically known facts about a callee value used by `callOrInvoke`:
whether `dyn_cast<llvm::Function>` succeeds, and, for direct callees, whether
it is an intrinsic or carries the `nounwind` attribute. -/
structure Callee where
  isFunction : Bool
  isIntrinsic : Bool
  doesNotThrow : Bool
  value : Nat
deriving Repr, DecidableEq

/-- Source of gen/funcgenstate.h lines 261-263: a callee that is a directly
known function which is an intrinsic or marked non-throwing. -/
def Callee.staticallyNonThrowing (c : Callee) : Bool :=
  c.isFunction && (c.isIntrinsic || c.doesNotThrow)

/-- Modelled from the spec: `get_landing_pad()` returns, creating once per
function as needed, the basic block receiving control on unwind. -/
def TryCatchFinallyScopes.getLandingPad (tcf : TryCatchFinallyScopes) (irs : IRState) :
    Nat × TryCatchFinallyScopes × IRState :=
  match tcf.landingPad with
  | some bb => (bb, tcf, irs)
  | none =>
      (irs.nextBlock, { tcf with landingPad := some irs.nextBlock },
        { irs with nextBlock := irs.nextBlock + 1 })

/-- Source of `class ScopeStack` (gen/funcgenstate.h): label targets, break
and continue target stacks, the wrapped cleanup/try-catch scope manager, and
the per-cleanup-scope lists of unresolved gotos.  The reference to the ambient
`IRState` is embedded as a field.  All stacks are innermost first; in
`unresolvedGotosPerCleanupScope` the LAST element represents the stack of
unresolved top-level gotos (no cleanups). -/
structure ScopeStack where
  irs : IRState
  labelTargets : List (Nat × JumpTarget)
  breakTargets : List JumpTarget
  continueTargets : List JumpTarget
  tryCatchFinallyScopes : TryCatchFinallyScopes
  unresolvedGotosPerCleanupScope : List (List GotoJump)
deriving Repr, DecidableEq

/-- Source of the `ScopeStack` constructor (gen/funcgenstate.h lines 103-105):
all stacks start empty and one (empty) unresolved-goto list is seeded for the
top level. -/
def mkScopeStack (irs : IRState) : ScopeStack :=
  ⟨irs, [], [], [], ⟨[], [], none⟩, [[]]⟩

/-- Source of `ScopeStack::currentCleanupScope` (delegation, lines 137-139). -/
def ScopeStack.currentCleanupScope (s : ScopeStack) : Nat :=
  s.tryCatchFinallyScopes.currentCleanupScope

/-- Source of `ScopeStack::pushCleanup` (lines 113-116): delegates to the
scope manager and appends one fresh unresolved-goto list. -/
def ScopeStack.pushCleanup (s : ScopeStack) (beginBlock endBlock : Nat) : ScopeStack :=
  { s with
    tryCatchFinallyScopes := s.tryCatchFinallyScopes.pushCleanup beginBlock endBlock,
    unresolvedGotosPerCleanupScope := [] :: s.unresolvedGotosPerCleanupScope }

/-- Source of `ScopeStack::runCleanups` (lines 123-125, delegation to the
scope manager).  Modelled from the spec: terminates the current basic block
with the branches executing every cleanup between the current depth and
`targetScope`, innermost first, finally reaching `continueWith`. -/
def ScopeStack.runCleanups (s : ScopeStack) (targetScope continueWith : Nat) : ScopeStack :=
  let mids := cleanupBeginBlocks s.tryCatchFinallyScopes.cleanupScopes
    s.currentCleanupScope targetScope
  { s with irs := s.irs.emitChainTo mids continueWith }

/-- Source of `ScopeStack::pushTryCatch` (lines 142-144, delegation). -/
def ScopeStack.pushTryCatch (s : ScopeStack) (stmt : TryCatchStatement) (endbb : Nat) :
    ScopeStack :=
  { s with tryCatchFinallyScopes := s.tryCatchFinallyScopes.pushTryCatch stmt endbb }

/-- Source of `ScopeStack::popTryCatch` (line 147, delegation). -/
def ScopeStack.popTryCatch (s : ScopeStack) : ScopeStack :=
  { s with tryCatchFinallyScopes := s.tryCatchFinallyScopes.popTryCatch }

/-- Source of `ScopeStack::callOrInvoke` (gen/funcgenstate.h lines 248-297):
ignores `isNothrow` if catching non-exception `Throwable`s; a callee that
(then still) does not throw, or an empty scope stack, yields a plain call;
otherwise an invocation to a fresh `postinvoke` block (which becomes the
current insertion block) with the landing pad as exception edge. -/
def ScopeStack.callOrInvoke (s : ScopeStack) (callee : Callee) (isNothrow : Bool) :
    CallSite × ScopeStack :=
  let isNothrow := if isNothrow && s.tryCatchFinallyScopes.isCatchingNonExceptions
    then false else isNothrow
  let doesNotThrow := isNothrow || callee.staticallyNonThrowing
  if doesNotThrow || s.tryCatchFinallyScopes.empty then
    (CallSite.call callee.value callee.isFunction, s)
  else
    let r := s.tryCatchFinallyScopes.getLandingPad s.irs
    let landingPad := r.1
    let tcf := r.2.1
    let irs0 := r.2.2
    let postinvoke := irs0.nextBlock
    let irs1 := { irs0 with nextBlock := irs0.nextBlock + 1, insertionBlock := postinvoke }
    (CallSite.invoke callee.value postinvoke landingPad callee.isFunction,
      { s with irs := irs1, tryCatchFinallyScopes := tcf })

/-- While a try/catch is active whose innermost try catches non-exception
throwables, the scope stack cannot be empty. -/
theorem TryCatchFinallyScopes.empty_eq_false_of_catching (tcf : TryCatchFinallyScopes)
    (h : tcf.isCatchingNonExceptions = true) : tcf.empty = false := by
  unfold TryCatchFinallyScopes.isCatchingNonExceptions at h
  unfold TryCatchFinallyScopes.empty
  cases htc : tcf.tryCatchScopes with
  | nil => rw [htc] at h; exact absurd h (by simp)
  | cons a l => simp [htc]

/-- C1, counterexample.  The claim states that while a try/catch catching
non-exception throwables is active, an invocation is emitted regardless of any
statically known non-throwing property of the callee.  At this input a
try/catch catching non-exception throwables is active and `isNothrow` is
`true`, but because the callee is a directly known intrinsic, `callOrInvoke`
still emits a plain call: the catching-non-exceptions override only clears the
`isNothrow` flag, not the callee-derived non-throwing property. -/
theorem c1_counterexample :
    (((mkScopeStack ⟨2, 0, []⟩).pushTryCatch ⟨0, true⟩
        1).tryCatchFinallyScopes.isCatchingNonExceptions = true)
    ∧ (((mkScopeStack ⟨2, 0, []⟩).pushTryCatch ⟨0, true⟩ 1).callOrInvoke
        ⟨true, true, false, 7⟩ true).1 = CallSite.call 7 true := by
  decide

/-- C1, amended.  For every call emitted through `callOrInvoke` while a
try/catch whose catch clauses handle non-exception throwables is active, an
invocation (with an exception edge) is emitted rather than a plain call,
regardless of the `isNothrow` flag — unless the callee is statically known
non-throwing (a directly known intrinsic or `nounwind` function), in which
case a plain call is still emitted. -/
theorem c1_invoke_of_catchingNonExceptions (s : ScopeStack) (c : Callee) (n : Bool)
    (hc : s.tryCatchFinallyScopes.isCatchingNonExceptions = true)
    (hs : c.staticallyNonThrowing = false) :
    ∃ nd pad, (s.callOrInvoke c n).1 = CallSite.invoke c.value nd pad c.isFunction := by
  have he := s.tryCatchFinallyScopes.empty_eq_false_of_catching hc
  unfold ScopeStack.callOrInvoke
  rw [hc, hs, he]
  cases n <;>
    cases hl : s.tryCatchFinallyScopes.landingPad <;>
      simp [TryCatchFinallyScopes.getLandingPad, hl]

theorem c1_witness :
    ∃ nd pad,
      (((mkScopeStack ⟨2, 0, []⟩).pushTryCatch ⟨0, true⟩ 1).callOrInvoke
        ⟨false, false, false, 7⟩ true).1 = CallSite.invoke 7 nd pad false :=
  c1_invoke_of_catchingNonExceptions ((mkScopeStack ⟨2, 0, []⟩).pushTryCatch ⟨0, true⟩ 1)
    ⟨false, false, false, 7⟩ true (by decide) (by decide)

/-- C2.  For every call emitted through `callOrInvoke` while no
try/catch/cleanup scope is active (the scope stack is empty), a plain call (no
exception edge) is emitted — and nothing else changes — for every value of the
`isNothrow` flag and every callee. -/
theorem c2_plainCall_of_emptyScopes (s : ScopeStack) (c : Callee) (n : Bool)
    (h : s.tryCatchFinallyScopes.empty = true) :
    s.callOrInvoke c n = (CallSite.call c.value c.isFunction, s) := by
  unfold ScopeStack.callOrInvoke
  rw [h]
  simp

theorem c2_witness :
    (mkScopeStack ⟨0, 0, []⟩).callOrInvoke ⟨false, false, false, 3⟩ false
      = (CallSite.call 3 false, mkScopeStack ⟨0, 0, []⟩) :=
  c2_plainCall_of_emptyScopes (mkScopeStack ⟨0, 0, []⟩) ⟨false, false, false, 3⟩ false
    (by decide)

/-- C3.  While at least one try/catch/cleanup scope is active and no active
try/catch catches non-exception throwables, `callOrInvoke` emits a plain call
if and only if `isNothrow` is true or the callee is statically known
non-throwing; otherwise it emits an invocation whose normal-return edge
continues into a fresh basic block (which becomes the current insertion block)
and whose exception edge targets the current landing pad. -/
theorem c3_callOrInvoke_activeScopes (s : ScopeStack) (c : Callee) (n : Bool)
    (he : s.tryCatchFinallyScopes.empty = false)
    (hc : s.tryCatchFinallyScopes.isCatchingNonExceptions = false) :
    ((s.callOrInvoke c n).1 = CallSite.call c.value c.isFunction
        ↔ (n || c.staticallyNonThrowing) = true)
    ∧ ((n || c.staticallyNonThrowing) = false →
        ∃ nd pad,
          (s.callOrInvoke c n).1 = CallSite.invoke c.value nd pad c.isFunction
          ∧ (s.callOrInvoke c n).2.irs.insertionBlock = nd
          ∧ s.irs.nextBlock ≤ nd
          ∧ nd < (s.callOrInvoke c n).2.irs.nextBlock
          ∧ (s.callOrInvoke c n).2.tryCatchFinallyScopes.landingPad = some pad) := by
  unfold ScopeStack.callOrInvoke
  rw [hc, he]
  cases hd : (n || c.staticallyNonThrowing) with
  | true =>
      cases n with
      | true => simp
      | false =>
          simp only [Bool.false_or] at hd
          simp [hd]
  | false =>
      have hn : n = false := by cases n <;> simp_all
      have hst : c.staticallyNonThrowing = false := by cases hx : c.staticallyNonThrowing <;> simp_all
      subst hn
      rw [hst]
      cases hl : s.tryCatchFinallyScopes.landingPad <;>
        simp [TryCatchFinallyScopes.getLandingPad, hl] <;>
          exact ⟨_, _, ⟨rfl, rfl⟩, rfl, by omega, by omega, rfl⟩

theorem c3_witness :
    ((((mkScopeStack ⟨5, 4, []⟩).pushCleanup 0 1).callOrInvoke ⟨true, false, true, 9⟩
          false).1 = CallSite.call 9 true
      ↔ (false || Callee.staticallyNonThrowing ⟨true, false, true, 9⟩) = true)
    ∧ ((false || Callee.staticallyNonThrowing ⟨true, false, true, 9⟩) = false →
        ∃ nd pad,
          (((mkScopeStack ⟨5, 4, []⟩).pushCleanup 0 1).callOrInvoke ⟨true, false, true, 9⟩
              false).1 = CallSite.invoke 9 nd pad true
          ∧ (((mkScopeStack ⟨5, 4, []⟩).pushCleanup 0 1).callOrInvoke ⟨true, false, true, 9⟩
              false).2.irs.insertionBlock = nd
          ∧ ((mkScopeStack ⟨5, 4, []⟩).pushCleanup 0 1).irs.nextBlock ≤ nd
          ∧ nd < (((mkScopeStack ⟨5, 4, []⟩).pushCleanup 0 1).callOrInvoke
              ⟨true, false, true, 9⟩ false).2.irs.nextBlock
          ∧ (((mkScopeStack ⟨5, 4, []⟩).pushCleanup 0 1).callOrInvoke ⟨true, false, true, 9⟩
              false).2.tryCatchFinallyScopes.landingPad = some pad) :=
  c3_callOrInvoke_activeScopes ((mkScopeStack ⟨5, 4, []⟩).pushCleanup 0 1)
    ⟨true, false, true, 9⟩ false (by decide) (by decide)

/-- The depth trace of `run_cleanups` enumerates the depths from the current
one down to the target, in descending order. -/
theorem runCleanupsDepthTrace_eq (D1 D2 : Nat) :
    runCleanupsDepthTrace D1 D2 = (List.range (D1 - D2)).map (fun k => D1 - k) := by
  induction D1 with
  | zero => simp [runCleanupsDepthTrace]
  | succ d ih =>
      by_cases h : D2 < d + 1
      · have hsub : d + 1 - D2 = (d - D2) + 1 := by omega
        rw [runCleanupsDepthTrace, if_pos h, ih, hsub, List.range_succ_eq_map]
        simp only [List.map_cons, List.map_map, Nat.sub_zero, List.cons.injEq, true_and]
        exact List.map_congr_left (fun k _ => by
          simp only [Function.comp_apply]
          omega)
      · have hsub : d + 1 - D2 = 0 := by omega
        rw [runCleanupsDepthTrace, if_neg h, hsub]
        simp

/-- Each cleanup depth strictly between the target and the current depth
occurs exactly once in the depth trace of `run_cleanups`; no other depth
occurs. -/
theorem runCleanupsDepthTrace_count (D1 D2 d : Nat) :
    (runCleanupsDepthTrace D1 D2).count d = if D2 < d ∧ d ≤ D1 then 1 else 0 := by
  induction D1 with
  | zero =>
      rw [runCleanupsDepthTrace]
      simp only [List.count_nil]
      split_ifs with h
      · omega
      · rfl
  | succ d1 ih =>
      by_cases h : D2 < d1 + 1
      · rw [runCleanupsDepthTrace, if_pos h, List.count_cons, ih]
        split_ifs <;> simp_all <;> omega
      · rw [runCleanupsDepthTrace, if_neg h]
        simp only [List.count_nil]
        split_ifs with hd
        · omega
        · rfl

/-- C4.  For every pair of cleanup nesting depths D1 > D2, a jump issued at
depth D1 targeting depth D2 (via `runCleanups`) executes the cleanups for
depths D1, D1-1, ..., D2+1, each exactly once, in that LIFO order
(most-recently-pushed first), before control reaches the continuation block:
the emitted branch chain starts at the current insertion block, passes
through the cleanup begin blocks innermost first, and ends at the
continuation block. -/
theorem c4_runCleanups_lifo (s : ScopeStack) (D2 continueWith : Nat)
    (h : D2 < s.currentCleanupScope) :
    runCleanupsDepthTrace s.currentCleanupScope D2
        = (List.range (s.currentCleanupScope - D2)).map (fun k => s.currentCleanupScope - k)
    ∧ (∀ d, (runCleanupsDepthTrace s.currentCleanupScope D2).count d
        = if D2 < d ∧ d ≤ s.currentCleanupScope then 1 else 0)
    ∧ (runCleanupsDepthTrace s.currentCleanupScope D2).head? = some s.currentCleanupScope
    ∧ (s.runCleanups D2 continueWith).irs.edges
        = s.irs.edges
          ++ chainPairs (s.irs.insertionBlock ::
              (cleanupBeginBlocks s.tryCatchFinallyScopes.cleanupScopes
                  s.currentCleanupScope D2
                ++ [continueWith])) := by
  refine ⟨runCleanupsDepthTrace_eq _ _, fun d => runCleanupsDepthTrace_count _ _ d, ?_, rfl⟩
  cases hD : s.currentCleanupScope with
  | zero => omega
  | succ m =>
      rw [runCleanupsDepthTrace, if_pos (by omega)]
      rfl

theorem c4_witness :
    (runCleanupsDepthTrace
        ((((mkScopeStack ⟨10, 9, []⟩).pushCleanup 0 1).pushCleanup 2 3).pushCleanup
            4 5).currentCleanupScope 1
      = (List.range
            (((((mkScopeStack ⟨10, 9, []⟩).pushCleanup 0 1).pushCleanup 2 3).pushCleanup
                4 5).currentCleanupScope - 1)).map
          (fun k =>
            ((((mkScopeStack ⟨10, 9, []⟩).pushCleanup 0 1).pushCleanup 2 3).pushCleanup
                4 5).currentCleanupScope - k))
    ∧ ((runCleanupsDepthTrace
          ((((mkScopeStack ⟨10, 9, []⟩).pushCleanup 0 1).pushCleanup 2 3).pushCleanup
              4 5).currentCleanupScope 1).count 2
        = if 1 < 2 ∧ 2 ≤ ((((mkScopeStack ⟨10, 9, []⟩).pushCleanup 0 1).pushCleanup
              2 3).pushCleanup 4 5).currentCleanupScope then 1 else 0)
    ∧ (runCleanupsDepthTrace
          ((((mkScopeStack ⟨10, 9, []⟩).pushCleanup 0 1).pushCleanup 2 3).pushCleanup
              4 5).currentCleanupScope 1).head?
      = some ((((mkScopeStack ⟨10, 9, []⟩).pushCleanup 0 1).pushCleanup 2 3).pushCleanup
          4 5).currentCleanupScope
    ∧ (((((mkScopeStack ⟨10, 9, []⟩).pushCleanup 0 1).pushCleanup 2 3).pushCleanup
          4 5).runCleanups 1 8).irs.edges
      = ((((mkScopeStack ⟨10, 9, []⟩).pushCleanup 0 1).pushCleanup 2 3).pushCleanup
          4 5).irs.edges
        ++ chainPairs
            (((((mkScopeStack ⟨10, 9, []⟩).pushCleanup 0 1).pushCleanup 2 3).pushCleanup
                4 5).irs.insertionBlock ::
              (cleanupBeginBlocks
                  ((((mkScopeStack ⟨10, 9, []⟩).pushCleanup 0 1).pushCleanup
                      2 3).pushCleanup 4 5).tryCatchFinallyScopes.cleanupScopes
                  ((((mkScopeStack ⟨10, 9, []⟩).pushCleanup 0 1).pushCleanup
                      2 3).pushCleanup 4 5).currentCleanupScope 1
                ++ [8])) :=
  have h := c4_runCleanups_lifo
    ((((mkScopeStack ⟨10, 9, []⟩).pushCleanup 0 1).pushCleanup 2 3).pushCleanup 4 5) 1 8
    (by decide)
  ⟨h.1, h.2.1 2, h.2.2.1, h.2.2.2⟩

/-- Source of `class SwitchCaseTargets` (gen/funcgenstate.h lines 305-320):
the per-function map from a case/default statement to its lazily created
basic block, plus the fresh-block allocator of the owning function.  The map
is kept as an association list with the newest binding first. -/
structure SwitchCaseTargets where
  targetBBs : List (Nat × Nat)
  nextBlock : Nat
deriving Repr, DecidableEq

/-- Modelled from the spec: `SwitchCaseTargets::get` (implementation not among
the sources) returns the block associated with the given case/default
statement, asserting that it has already been created; the assertion failure
on a never-created statement is modelled as `none`. -/
def SwitchCaseTargets.get (t : SwitchCaseTargets) (stmt : Nat) : Option Nat :=
  (t.targetBBs.find? (fun p => p.1 == stmt)).map (fun p => p.2)

/-- Modelled from the spec: `SwitchCaseTargets::getOrCreate` (implementation
not among the sources) returns the existing block for the statement or
creates and registers a fresh one. -/
def SwitchCaseTargets.getOrCreate (t : SwitchCaseTargets) (stmt : Nat) :
    Nat × SwitchCaseTargets :=
  match t.get stmt with
  | some bb => (bb, t)
  | none =>
      (t.nextBlock,
        { targetBBs := (stmt, t.nextBlock) :: t.targetBBs, nextBlock := t.nextBlock + 1 })

/-- C8.  `SwitchCaseTargets::getOrCreate` is idempotent per case/default
statement: the first call creates and registers a fresh basic block and every
subsequent call with the same statement returns that same block with the
state unchanged; `SwitchCaseTargets::get` on a statement for which no block
has been created fails (fatal precondition violation, modelled as `none`)
rather than returning a block. -/
theorem c8_switchCaseTargets (t : SwitchCaseTargets) (stmt : Nat) :
    ((t.getOrCreate stmt).2.getOrCreate stmt = t.getOrCreate stmt)
    ∧ ((∀ p ∈ t.targetBBs, p.1 ≠ stmt) → t.get stmt = none) := by
  constructor
  · cases h : t.get stmt with
    | some bb =>
        simp [SwitchCaseTargets.getOrCreate, h]
    | none =>
        have h2 : SwitchCaseTargets.get
            ⟨(stmt, t.nextBlock) :: t.targetBBs, t.nextBlock + 1⟩ stmt
            = some t.nextBlock := by
          simp [SwitchCaseTargets.get]
        simp [SwitchCaseTargets.getOrCreate, h, h2]
  · intro h
    unfold SwitchCaseTargets.get
    rw [List.find?_eq_none.mpr]
    · rfl
    · intro p hp
      simpa using h p hp

theorem c8_witness :
    ((((⟨[], 0⟩ : SwitchCaseTargets).getOrCreate 5).2.getOrCreate 5
        = (⟨[], 0⟩ : SwitchCaseTargets).getOrCreate 5)
      ∧ (SwitchCaseTargets.get ⟨[], 0⟩ 5 = none)) :=
  ⟨(c8_switchCaseTargets ⟨[], 0⟩ 5).1,
    (c8_switchCaseTargets ⟨[], 0⟩ 5).2 (by simp)⟩

/-- Source of `class FuncGenState` (gen/funcgenstate.h lines 327-382): the
top-level per-function aggregate.  Only the members involved in the lazily
created slots/blocks are modelled, together with fresh allocators for stack
slots and basic blocks; the scope stack and switch targets live in their own
structures above. -/
structure FuncGenState where
  allocapoint : Option Nat
  nestedVar : Option Nat
  retBlock : Option Nat
  retValSlot : Option Nat
  ehSelectorSlot : Option Nat
  ehPtrSlot : Option Nat
  resumeUnwindBlock : Option Nat
  nextSlot : Nat
  nextBlock : Nat
deriving Repr, DecidableEq

/-- Modelled from the spec: `FuncGenState::getOrCreateEhPtrSlot`
(gen/funcgenstate.cpp, not among the sources): returns the function's single
stack slot for the in-flight exception pointer, creating it in the entry
block on first use and caching it in the `ehPtrSlot` member. -/
def FuncGenState.getOrCreateEhPtrSlot (f : FuncGenState) : Nat × FuncGenState :=
  match f.ehPtrSlot with
  | some slot => (slot, f)
  | none =>
      (f.nextSlot, { f with ehPtrSlot := some f.nextSlot, nextSlot := f.nextSlot + 1 })

/-- Modelled from the spec: `FuncGenState::getOrCreateResumeUnwindBlock`
(gen/funcgenstate.cpp, not among the sources): returns the single shared
basic block that resumes unwinding, created once and cached in the
`resumeUnwindBlock` member. -/
def FuncGenState.getOrCreateResumeUnwindBlock (f : FuncGenState) : Nat × FuncGenState :=
  match f.resumeUnwindBlock with
  | some bb => (bb, f)
  | none =>
      (f.nextBlock,
        { f with resumeUnwindBlock := some f.nextBlock, nextBlock := f.nextBlock + 1 })

/-- C7.  Within one function's generation, `getOrCreateEhPtrSlot` and
`getOrCreateResumeUnwindBlock` are idempotent: the first call creates the
exception-pointer slot / resume-unwind block, and every subsequent call
returns the identical slot / block with the state unchanged. -/
theorem c7_lazySlots_idempotent (f : FuncGenState) :
    (f.getOrCreateEhPtrSlot.2.getOrCreateEhPtrSlot = f.getOrCreateEhPtrSlot)
    ∧ (f.getOrCreateResumeUnwindBlock.2.getOrCreateResumeUnwindBlock
        = f.getOrCreateResumeUnwindBlock) := by
  constructor
  · cases h : f.ehPtrSlot <;> simp [FuncGenState.getOrCreateEhPtrSlot, h]
  · cases h : f.resumeUnwindBlock <;> simp [FuncGenState.getOrCreateResumeUnwindBlock, h]

/-- Modelled from the spec: `ScopeStack::jumpToClosest` (implementation not
among the sources), the unified implementation for unlabeled break/continue:
resolves to the innermost (most recently pushed, here: first) entry of the
given target stack.  An empty stack is a fatal compile error, modelled as
`none`. -/
def jumpToClosest (targets : List JumpTarget) : Option JumpTarget :=
  targets.head?

/-- Modelled from the spec: `ScopeStack::jumpToStatement` (implementation not
among the sources), the unified implementation for labeled break/continue:
searches the target stack from the innermost entry for the target whose
associated statement is identical to the named one.  Addressing a statement
never pushed as a target is a fatal compile error, modelled as `none`. -/
def jumpToStatement (targets : List JumpTarget) (stmt : Nat) : Option JumpTarget :=
  targets.find? (fun jt => jt.targetStatement == some stmt)

/-- Source of `ScopeStack::continueWithLoop` (lines 188-190, delegation). -/
def ScopeStack.continueWithLoop (s : ScopeStack) (loopStatement : Nat) : Option JumpTarget :=
  jumpToStatement s.continueTargets loopStatement

/-- Source of `ScopeStack::continueWithClosest` (line 195, delegation). -/
def ScopeStack.continueWithClosest (s : ScopeStack) : Option JumpTarget :=
  jumpToClosest s.continueTargets

/-- Source of `ScopeStack::breakToStatement` (lines 200-202, delegation). -/
def ScopeStack.breakToStatement (s : ScopeStack) (loopOrSwitchStatement : Nat) :
    Option JumpTarget :=
  jumpToStatement s.breakTargets loopOrSwitchStatement

/-- Source of `ScopeStack::breakToClosest` (line 207, delegation). -/
def ScopeStack.breakToClosest (s : ScopeStack) : Option JumpTarget :=
  jumpToClosest s.breakTargets

/-- Modelled from the spec: `ScopeStack::pushLoopTarget` (implementation not
among the sources): pushes the loop's continue and break targets, captured at
the current cleanup depth and tagged with the loop statement for labeled
lookups. -/
def ScopeStack.pushLoopTarget (s : ScopeStack)
    (loopStatement continueTarget breakTarget : Nat) : ScopeStack :=
  { s with
    continueTargets :=
      ⟨continueTarget, s.currentCleanupScope, some loopStatement⟩ :: s.continueTargets,
    breakTargets :=
      ⟨breakTarget, s.currentCleanupScope, some loopStatement⟩ :: s.breakTargets }

/-- Modelled from the spec: `ScopeStack::popLoopTarget` (implementation not
among the sources). -/
def ScopeStack.popLoopTarget (s : ScopeStack) : ScopeStack :=
  { s with continueTargets := s.continueTargets.tail,
           breakTargets := s.breakTargets.tail }

/-- Modelled from the spec: `ScopeStack::pushBreakTarget` (implementation not
among the sources): same as `pushLoopTarget` for switch statements
(break-only). -/
def ScopeStack.pushBreakTarget (s : ScopeStack) (switchStatement targetBlock : Nat) :
    ScopeStack :=
  { s with breakTargets :=
      ⟨targetBlock, s.currentCleanupScope, some switchStatement⟩ :: s.breakTargets }

/-- Modelled from the spec: `ScopeStack::popBreakTarget` (implementation not
among the sources). -/
def ScopeStack.popBreakTarget (s : ScopeStack) : ScopeStack :=
  { s with breakTargets := s.breakTargets.tail }

/-- C6.  Unlabeled break/continue emission always resolves to the topmost
(innermost) entry of the applicable target stack; labeled emission resolves to
the jump target whose associated statement is identical to the named one,
even when more deeply nested constructs (`deeper`, none of them associated
with that statement) were pushed in between; using any of these with an empty
applicable stack (respectively one without the named statement) is a fatal
compile error, modelled as `none`. -/
theorem c6_breakContinueResolution (deeper ts : List JumpTarget) (t : JumpTarget)
    (stmt : Nat) :
    (jumpToClosest (t :: ts) = some t)
    ∧ (jumpToClosest ([] : List JumpTarget) = none)
    ∧ (t.targetStatement = some stmt →
        (∀ u ∈ deeper, u.targetStatement ≠ some stmt) →
        jumpToStatement (deeper ++ t :: ts) stmt = some t)
    ∧ ((∀ u ∈ ts, u.targetStatement ≠ some stmt) → jumpToStatement ts stmt = none) := by
  refine ⟨rfl, rfl, ?_, ?_⟩
  · intro ht hdeeper
    unfold jumpToStatement
    rw [List.find?_append, List.find?_eq_none.mpr, Option.none_or,
      List.find?_cons_of_pos]
    · simp [ht]
    · intro u hu
      simpa using hdeeper u hu
  · intro h
    unfold jumpToStatement
    rw [List.find?_eq_none.mpr]
    intro u hu
    simpa using h u hu

theorem c6_witness :
    (jumpToClosest [⟨3, 1, some 10⟩, ⟨4, 0, some 20⟩] = some ⟨3, 1, some 10⟩)
    ∧ (jumpToClosest ([] : List JumpTarget) = none)
    ∧ (jumpToStatement ([⟨3, 1, some 10⟩] ++ ⟨4, 0, some 20⟩ :: [⟨5, 0, none⟩]) 20
        = some ⟨4, 0, some 20⟩)
    ∧ (jumpToStatement [⟨5, 0, none⟩] 20 = none) :=
  have h := c6_breakContinueResolution [⟨3, 1, some 10⟩] [⟨5, 0, none⟩] ⟨4, 0, some 20⟩ 20
  ⟨(c6_breakContinueResolution [⟨4, 0, some 20⟩] [] ⟨3, 1, some 10⟩ 20).1, h.2.1,
    h.2.2.1 (by decide) (by decide), h.2.2.2 (by decide)⟩

/-- The label lookup in the `labelTargets` map (newest binding first, so a
re-registration would shadow the older one). -/
def lookupLabel (m : List (Nat × JumpTarget)) (labelName : Nat) : Option JumpTarget :=
  (m.find? (fun p => p.1 == labelName)).map (fun p => p.2)

/-- Source of `ScopeStack::currentUnresolvedGotos` (the `back()` of
`unresolvedGotosPerCleanupScope`; innermost first here, hence the head). -/
def ScopeStack.currentUnresolvedGotos (s : ScopeStack) : List GotoJump :=
  s.unresolvedGotosPerCleanupScope.headD []

/-- All pending gotos across all cleanup depths. -/
def ScopeStack.allUnresolvedGotos (s : ScopeStack) : List GotoJump :=
  s.unresolvedGotosPerCleanupScope.flatten

/-- Modelled from the spec: `ScopeStack::jumpToLabel` (implementation not
among the sources).  If the label is already known, terminates the current
block with the cleanup-unwinding branch sequence toward it.  If unknown,
creates a tentative placeholder target (a fresh block, branched to from the
current block so the goto's block is terminated), and records a pending goto
tagged with the current cleanup cursor: it is appended to the unresolved-goto
list of the current (innermost) cleanup scope. -/
def ScopeStack.jumpToLabel (s : ScopeStack) (loc labelName : Nat) : ScopeStack :=
  match lookupLabel s.labelTargets labelName with
  | some jt => s.runCleanups jt.cleanupScope jt.targetBlock
  | none =>
      let tentativeTarget := s.irs.nextBlock
      let g : GotoJump := ⟨loc, s.irs.insertionBlock, some tentativeTarget, labelName⟩
      let irs1 : IRState := { s.irs with
        nextBlock := s.irs.nextBlock + 1,
        edges := s.irs.edges ++ [(s.irs.insertionBlock, tentativeTarget)] }
      { s with
        irs := irs1,
        unresolvedGotosPerCleanupScope :=
          match s.unresolvedGotosPerCleanupScope with
          | [] => [[g]]
          | gs :: rest => (gs ++ [g]) :: rest }

/-- Modelled from the spec: `ScopeStack::addLabelTarget` (implementation not
among the sources).  Registers the label at the current cleanup depth and
immediately resolves every pending goto addressed to it in the current
unresolved-goto list (where `popCleanups` has by now deposited every pending
goto recorded at a deeper cleanup depth), wiring each one's placeholder — or
its source block when no placeholder was needed — into the real
destination. -/
def ScopeStack.addLabelTarget (s : ScopeStack) (labelName targetBlock : Nat) : ScopeStack :=
  let withLabel := { s with labelTargets :=
    (labelName, ⟨targetBlock, s.currentCleanupScope, none⟩) :: s.labelTargets }
  match s.unresolvedGotosPerCleanupScope with
  | [] => withLabel
  | gs :: rest =>
      let resolved := gs.filter (fun g => g.targetLabel == labelName)
      let remaining := gs.filter (fun g => g.targetLabel != labelName)
      let irs1 : IRState := { withLabel.irs with
        edges := withLabel.irs.edges
          ++ resolved.map
              (fun g => ((g.tentativeTarget).getD g.sourceBlock, targetBlock)) }
      { withLabel with
        irs := irs1,
        unresolvedGotosPerCleanupScope := remaining :: rest }

/-- Modelled from the spec: one step of `ScopeStack::popCleanups`
(implementation not among the sources): pops the innermost cleanup scope.
Any goto still unresolved in that scope necessarily leaves it, so its
placeholder is wired to the popped cleanup and a fresh placeholder (a shared
post-cleanup dispatch block, sanctioned by §4.1) carries execution after the
cleanup; the goto then moves to the enclosing scope's unresolved list. -/
def ScopeStack.popCleanupOne (s : ScopeStack) : ScopeStack :=
  match s.tryCatchFinallyScopes.cleanupScopes, s.unresolvedGotosPerCleanupScope with
  | c :: restCleanups, gs :: next :: restGotos =>
      let post := s.irs.nextBlock
      let irs1 : IRState := { s.irs with
        nextBlock := s.irs.nextBlock + 1,
        edges := s.irs.edges
          ++ gs.map (fun g => ((g.tentativeTarget).getD g.sourceBlock, c.beginBlock))
          ++ [(c.endBlock, post)] }
      let moved := gs.map (fun g => { g with tentativeTarget := some post })
      { s with
        irs := irs1,
        tryCatchFinallyScopes :=
          { s.tryCatchFinallyScopes with cleanupScopes := restCleanups },
        unresolvedGotosPerCleanupScope := (next ++ moved) :: restGotos }
  | _, _ => s

/-- Fuelled iteration for `popCleanups`; the fuel is the current depth. -/
def ScopeStack.popCleanupsAux : Nat → ScopeStack → Nat → ScopeStack
  | 0, s, _ => s
  | n + 1, s, targetScope =>
      if s.currentCleanupScope ≤ targetScope then s
      else ScopeStack.popCleanupsAux n s.popCleanupOne targetScope

/-- Source of `ScopeStack::popCleanups` (declared line 130, implementation not
among the sources, modelled from the spec): pops all the cleanups between the
current scope and the target cursor without emitting cleanup calls for the
normal path, moving still-unresolved gotos into the enclosing scopes. -/
def ScopeStack.popCleanups (s : ScopeStack) (targetScope : Nat) : ScopeStack :=
  ScopeStack.popCleanupsAux s.currentCleanupScope s targetScope

/-- What the `ScopeStack` destructor reports: whether the cleanup depth was
back to 0, and one undefined-label compile error per pending goto, carrying
the goto's source location. -/
structure TeardownReport where
  depthIsZero : Bool
  undefinedLabelErrors : List Nat
deriving Repr, DecidableEq

/-- Modelled from the spec: the `ScopeStack` destructor (declared line 106,
implementation not among the sources): asserts that the cleanup depth is 0,
and reports every still-pending goto as an undefined-label fatal compile
error at the goto's source location. -/
def ScopeStack.teardown (s : ScopeStack) : TeardownReport :=
  ⟨s.currentCleanupScope == 0, s.allUnresolvedGotos.map (fun g => g.sourceLoc)⟩

/-- Function generation is abandoned when teardown found leaked scopes or
pending gotos; there is no recovery. -/
def TeardownReport.abandoned (r : TeardownReport) : Bool :=
  !r.depthIsZero || !r.undefinedLabelErrors.isEmpty

/-- The invariant of C10: the per-depth list of unresolved gotos always has
length exactly the current cleanup-scope depth plus one. -/
def ScopeStackInv (s : ScopeStack) : Prop :=
  s.unresolvedGotosPerCleanupScope.length = s.currentCleanupScope + 1

/-- C9.  At function-generation teardown, the `ScopeStack` destructor checks
that the cleanup depth is 0 and that there are zero pending gotos across all
depths; any pending goto remaining at teardown is reported as an
undefined-label fatal compile error at the goto's source location, and
generation for the function is abandoned (no recovery) whenever either check
fails. -/
theorem c9_teardown (s : ScopeStack) :
    ((s.teardown).depthIsZero = true ↔ s.currentCleanupScope = 0)
    ∧ (s.teardown).undefinedLabelErrors
        = s.allUnresolvedGotos.map (fun g => g.sourceLoc)
    ∧ (∀ g ∈ s.allUnresolvedGotos, g.sourceLoc ∈ (s.teardown).undefinedLabelErrors)
    ∧ ((s.teardown).abandoned = false
        ↔ (s.currentCleanupScope = 0 ∧ s.allUnresolvedGotos = [])) := by
  refine ⟨?_, rfl, ?_, ?_⟩
  · simp [ScopeStack.teardown]
  · intro g hg
    simpa [ScopeStack.teardown] using List.mem_map_of_mem (fun g => g.sourceLoc) hg
  · simp [TeardownReport.abandoned, ScopeStack.teardown, List.isEmpty_iff]

theorem c9_witness :
    (42 : Nat) ∈
      (((mkScopeStack ⟨0, 0, []⟩).jumpToLabel 42 5).teardown).undefinedLabelErrors :=
  (c9_teardown ((mkScopeStack ⟨0, 0, []⟩).jumpToLabel 42 5)).2.2.1 ⟨42, 0, some 0, 5⟩
    (by decide)

/-- `popCleanupOne` preserves the C10 invariant. -/
theorem ScopeStackInv.popCleanupOne {s : ScopeStack} (h : ScopeStackInv s) :
    ScopeStackInv s.popCleanupOne := by
  unfold ScopeStack.popCleanupOne
  cases hc : s.tryCatchFinallyScopes.cleanupScopes with
  | nil => exact h
  | cons c restCleanups =>
      cases hg : s.unresolvedGotosPerCleanupScope with
      | nil => exact h
      | cons gs rest2 =>
          cases rest2 with
          | nil => exact h
          | cons next restGotos =>
              unfold ScopeStackInv at h ⊢
              unfold ScopeStack.currentCleanupScope
                TryCatchFinallyScopes.currentCleanupScope at h ⊢
              rw [hc, hg] at h
              simp_all

/-- `popCleanupsAux` preserves the C10 invariant. -/
theorem ScopeStackInv.popCleanupsAux :
    ∀ (n : Nat) (s : ScopeStack) (t : Nat), ScopeStackInv s →
      ScopeStackInv (ScopeStack.popCleanupsAux n s t) := by
  intro n
  induction n with
  | zero => intro s t h; exact h
  | succ n ih =>
      intro s t h
      rw [ScopeStack.popCleanupsAux]
      by_cases hle : s.currentCleanupScope ≤ t
      · rw [if_pos hle]; exact h
      · rw [if_neg hle]; exact ih s.popCleanupOne t h.popCleanupOne

/-- C10.  Invariant kept by every `ScopeStack` operation: the per-depth list
of unresolved gotos is never empty and its length always equals the current
cleanup-scope depth plus one — the constructor seeds the depth-0 entry and
each `pushCleanup` appends exactly one new entry, so `currentUnresolvedGotos`
always has a valid list to address. -/
theorem c10_unresolvedGotos_invariant :
    (∀ irs : IRState, ScopeStackInv (mkScopeStack irs))
    ∧ (∀ (s : ScopeStack) (b e : Nat), ScopeStackInv s →
        ScopeStackInv (s.pushCleanup b e))
    ∧ (∀ (s : ScopeStack) (t : Nat), ScopeStackInv s →
        ScopeStackInv (s.popCleanups t))
    ∧ (∀ (s : ScopeStack) (st : TryCatchStatement) (e : Nat), ScopeStackInv s →
        ScopeStackInv (s.pushTryCatch st e))
    ∧ (∀ s : ScopeStack, ScopeStackInv s → ScopeStackInv s.popTryCatch)
    ∧ (∀ (s : ScopeStack) (a b c : Nat), ScopeStackInv s →
        ScopeStackInv (s.pushLoopTarget a b c))
    ∧ (∀ s : ScopeStack, ScopeStackInv s → ScopeStackInv s.popLoopTarget)
    ∧ (∀ (s : ScopeStack) (a b : Nat), ScopeStackInv s →
        ScopeStackInv (s.pushBreakTarget a b))
    ∧ (∀ s : ScopeStack, ScopeStackInv s → ScopeStackInv s.popBreakTarget)
    ∧ (∀ (s : ScopeStack) (t c : Nat), ScopeStackInv s →
        ScopeStackInv (s.runCleanups t c))
    ∧ (∀ (s : ScopeStack) (loc l : Nat), ScopeStackInv s →
        ScopeStackInv (s.jumpToLabel loc l))
    ∧ (∀ (s : ScopeStack) (l tb : Nat), ScopeStackInv s →
        ScopeStackInv (s.addLabelTarget l tb))
    ∧ (∀ (s : ScopeStack) (c : Callee) (n : Bool), ScopeStackInv s →
        ScopeStackInv (s.callOrInvoke c n).2)
    ∧ (∀ s : ScopeStack, ScopeStackInv s → s.unresolvedGotosPerCleanupScope ≠ []) := by
  refine ⟨?_, ?_, ?_, ?_, ?_, ?_, ?_, ?_, ?_, ?_, ?_, ?_, ?_, ?_⟩
  · intro irs
    rfl
  · intro s b e h
    unfold ScopeStackInv at h ⊢
    simp [ScopeStack.pushCleanup, TryCatchFinallyScopes.pushCleanup,
      ScopeStack.currentCleanupScope, TryCatchFinallyScopes.currentCleanupScope] at h ⊢
    omega
  · intro s t h
    exact ScopeStackInv.popCleanupsAux s.currentCleanupScope s t h
  · intro s st e h
    exact h
  · intro s h
    exact h
  · intro s a b c h
    exact h
  · intro s h
    exact h
  · intro s a b h
    exact h
  · intro s h
    exact h
  · intro s t c h
    exact h
  · intro s loc l h
    unfold ScopeStack.jumpToLabel
    cases hl : lookupLabel s.labelTargets l with
    | some jt => exact h
    | none =>
        cases hg : s.unresolvedGotosPerCleanupScope with
        | nil =>
            unfold ScopeStackInv at h
            rw [hg] at h
            simp at h
        | cons gs rest =>
            unfold ScopeStackInv at h ⊢
            rw [hg] at h
            simp_all [ScopeStack.currentCleanupScope,
              TryCatchFinallyScopes.currentCleanupScope]
  · intro s l tb h
    unfold ScopeStack.addLabelTarget
    cases hg : s.unresolvedGotosPerCleanupScope with
    | nil =>
        unfold ScopeStackInv at h
        rw [hg] at h
        simp at h
    | cons gs rest =>
        unfold ScopeStackInv at h ⊢
        rw [hg] at h
        simp_all [ScopeStack.currentCleanupScope,
          TryCatchFinallyScopes.currentCleanupScope]
  · intro s c n h
    unfold ScopeStack.callOrInvoke
    by_cases hcond : ((if n && s.tryCatchFinallyScopes.isCatchingNonExceptions
        then false else n) || c.staticallyNonThrowing)
        || s.tryCatchFinallyScopes.empty
    · rw [if_pos hcond]
      exact h
    · rw [if_neg hcond]
      cases hl : s.tryCatchFinallyScopes.landingPad with
      | some bb =>
          unfold ScopeStackInv at h ⊢
          simp_all [TryCatchFinallyScopes.getLandingPad,
            ScopeStack.currentCleanupScope, TryCatchFinallyScopes.currentCleanupScope]
      | none =>
          unfold ScopeStackInv at h ⊢
          simp_all [TryCatchFinallyScopes.getLandingPad,
            ScopeStack.currentCleanupScope, TryCatchFinallyScopes.currentCleanupScope]
  · intro s h
    unfold ScopeStackInv at h
    intro hnil
    rw [hnil] at h
    simp at h

theorem c10_witness :
    ScopeStackInv (((mkScopeStack ⟨0, 0, []⟩).pushCleanup 1 2).popCleanups 0) :=
  c10_unresolvedGotos_invariant.2.2.1 ((mkScopeStack ⟨0, 0, []⟩).pushCleanup 1 2) 0
    (c10_unresolvedGotos_invariant.2.1 (mkScopeStack ⟨0, 0, []⟩) 1 2
      (c10_unresolvedGotos_invariant.1 ⟨0, 0, []⟩))

/-- One `popCleanupOne` step keeps every pending goto pending: the goto moves
to the enclosing scope's list, with its source location, source block and
target label unchanged (only the placeholder may be rewired through the
popped cleanup). -/
theorem popCleanupOne_goto_mem (s : ScopeStack) (g : GotoJump)
    (hg : g ∈ s.allUnresolvedGotos) :
    ∃ g', g' ∈ s.popCleanupOne.allUnresolvedGotos
      ∧ g'.sourceLoc = g.sourceLoc ∧ g'.sourceBlock = g.sourceBlock
      ∧ g'.targetLabel = g.targetLabel := by
  unfold ScopeStack.popCleanupOne
  cases hc : s.tryCatchFinallyScopes.cleanupScopes with
  | nil => exact ⟨g, hg, rfl, rfl, rfl⟩
  | cons c restCleanups =>
      cases hgl : s.unresolvedGotosPerCleanupScope with
      | nil => exact ⟨g, hg, rfl, rfl, rfl⟩
      | cons gs rest2 =>
          cases rest2 with
          | nil => exact ⟨g, hg, rfl, rfl, rfl⟩
          | cons next restGotos =>
              unfold ScopeStack.allUnresolvedGotos at hg ⊢
              rw [hgl] at hg
              simp only [List.flatten_cons, List.mem_append] at hg
              rcases hg with hgs | hnext | hrest
              · refine ⟨{ g with tentativeTarget := some s.irs.nextBlock }, ?_, rfl, rfl, rfl⟩
                simp only [List.flatten_cons, List.mem_append]
                exact Or.inl (Or.inr (List.mem_map_of_mem _ hgs))
              · refine ⟨g, ?_, rfl, rfl, rfl⟩
                simp only [List.flatten_cons, List.mem_append]
                exact Or.inl (Or.inl hnext)
              · refine ⟨g, ?_, rfl, rfl, rfl⟩
                simp only [List.flatten_cons, List.mem_append]
                exact Or.inr hrest

/-- `popCleanupsAux` keeps every pending goto pending. -/
theorem popCleanupsAux_goto_mem :
    ∀ (n : Nat) (s : ScopeStack) (t : Nat) (g : GotoJump),
      g ∈ s.allUnresolvedGotos →
      ∃ g', g' ∈ (ScopeStack.popCleanupsAux n s t).allUnresolvedGotos
        ∧ g'.sourceLoc = g.sourceLoc ∧ g'.sourceBlock = g.sourceBlock
        ∧ g'.targetLabel = g.targetLabel := by
  intro n
  induction n with
  | zero => intro s t g hg; exact ⟨g, hg, rfl, rfl, rfl⟩
  | succ n ih =>
      intro s t g hg
      rw [ScopeStack.popCleanupsAux]
      by_cases hle : s.currentCleanupScope ≤ t
      · rw [if_pos hle]; exact ⟨g, hg, rfl, rfl, rfl⟩
      · rw [if_neg hle]
        obtain ⟨g1, hg1, e1, e2, e3⟩ := popCleanupOne_goto_mem s g hg
        obtain ⟨g2, hg2, f1, f2, f3⟩ := ih s.popCleanupOne t g1 hg1
        exact ⟨g2, hg2, by rw [f1, e1], by rw [f2, e2], by rw [f3, e3]⟩

/-- C5.  (a) A goto emitted via `jumpToLabel` whose label is not yet known
creates a tentative placeholder target (the fresh block `s.irs.nextBlock`)
and records a pending goto carrying it, appended to the unresolved-goto list
of the current cleanup scope (i.e. tagged with the current cleanup cursor),
leaving the label table unchanged.  (b) When `addLabelTarget` later registers
that label, it is entered at the current cleanup depth, every pending goto of
the current list addressed to that identifier is removed from the pending
list, and its placeholder — or its source block, if it had no placeholder —
is wired by a branch into the real destination.  (c) `popCleanups` never
drops a pending goto: each pending goto recorded at a deeper cleanup depth is
carried (identity: source location, source block, target label) into the
shallower scope's list, where (b) will find it. -/
theorem c5_gotoForwardResolution :
    (∀ (s : ScopeStack) (loc l : Nat) (gs : List GotoJump) (rest : List (List GotoJump)),
      lookupLabel s.labelTargets l = none →
      s.unresolvedGotosPerCleanupScope = gs :: rest →
      (s.jumpToLabel loc l).unresolvedGotosPerCleanupScope
          = (gs ++ [⟨loc, s.irs.insertionBlock, some s.irs.nextBlock, l⟩]) :: rest
      ∧ (s.jumpToLabel loc l).irs.nextBlock = s.irs.nextBlock + 1
      ∧ (s.jumpToLabel loc l).labelTargets = s.labelTargets)
    ∧ (∀ (s : ScopeStack) (l tb : Nat) (gs : List GotoJump) (rest : List (List GotoJump)),
      s.unresolvedGotosPerCleanupScope = gs :: rest →
      lookupLabel (s.addLabelTarget l tb).labelTargets l
          = some ⟨tb, s.currentCleanupScope, none⟩
      ∧ (s.addLabelTarget l tb).unresolvedGotosPerCleanupScope
          = (gs.filter (fun g => g.targetLabel != l)) :: rest
      ∧ (∀ g ∈ gs, g.targetLabel = l →
          ((g.tentativeTarget).getD g.sourceBlock, tb)
            ∈ (s.addLabelTarget l tb).irs.edges))
    ∧ (∀ (s : ScopeStack) (targetScope : Nat) (g : GotoJump),
      g ∈ s.allUnresolvedGotos →
      ∃ g', g' ∈ (s.popCleanups targetScope).allUnresolvedGotos
        ∧ g'.sourceLoc = g.sourceLoc ∧ g'.sourceBlock = g.sourceBlock
        ∧ g'.targetLabel = g.targetLabel) := by
  refine ⟨?_, ?_, ?_⟩
  · intro s loc l gs rest h1 h2
    unfold ScopeStack.jumpToLabel
    rw [h1, h2]
    exact ⟨rfl, rfl, rfl⟩
  · intro s l tb gs rest h
    unfold ScopeStack.addLabelTarget
    rw [h]
    refine ⟨?_, rfl, ?_⟩
    · simp [lookupLabel]
    · intro g hgmem hlab
      simp only [IRState.emitChainTo]
      exact List.mem_append_right _
        (List.mem_map_of_mem _ (List.mem_filter.mpr ⟨hgmem, by simp [hlab]⟩))
  · intro s targetScope g hg
    exact popCleanupsAux_goto_mem s.currentCleanupScope s targetScope g hg

theorem c5_witness :
    (((mkScopeStack ⟨0, 0, []⟩).jumpToLabel 42 5).unresolvedGotosPerCleanupScope
        = ([] ++ [⟨42, 0, some 0, 5⟩]) :: []
      ∧ ((mkScopeStack ⟨0, 0, []⟩).jumpToLabel 42 5).irs.nextBlock = 0 + 1
      ∧ ((mkScopeStack ⟨0, 0, []⟩).jumpToLabel 42 5).labelTargets
          = (mkScopeStack ⟨0, 0, []⟩).labelTargets)
    ∧ ((0 : Nat), 99) ∈
        (((mkScopeStack ⟨0, 0, []⟩).jumpToLabel 42 5).addLabelTarget 5 99).irs.edges
    ∧ (∃ g', g' ∈ (((mkScopeStack ⟨0, 0, []⟩).jumpToLabel 42 5).popCleanups
          0).allUnresolvedGotos
        ∧ g'.sourceLoc = GotoJump.sourceLoc ⟨42, 0, some 0, 5⟩
        ∧ g'.sourceBlock = GotoJump.sourceBlock ⟨42, 0, some 0, 5⟩
        ∧ g'.targetLabel = GotoJump.targetLabel ⟨42, 0, some 0, 5⟩) :=
  ⟨c5_gotoForwardResolution.1 (mkScopeStack ⟨0, 0, []⟩) 42 5 [] [] (by decide) rfl,
    (c5_gotoForwardResolution.2.1 ((mkScopeStack ⟨0, 0, []⟩).jumpToLabel 42 5) 5 99
        [⟨42, 0, some 0, 5⟩] [] rfl).2.2 ⟨42, 0, some 0, 5⟩ (by decide) rfl,
    c5_gotoForwardResolution.2.2 ((mkScopeStack ⟨0, 0, []⟩).jumpToLabel 42 5) 0
      ⟨42, 0, some 0, 5⟩ (by decide)⟩
